import Mathlib

/-!
Verification development for the anemo peer-to-peer networking layer
(`src/network/mod.rs` and its submodules).

The public facade (`Network` / `NetworkInner`) lives in `src/network/mod.rs`
and is embedded directly from that source.  The submodules
`connection_manager.rs` (the `ActivePeers` and `KnownPeers` registries, the
tie-break policy), `peer.rs` (the RPC multiplexer) and `wire.rs`
(framing) are not part of the provided sources; the corresponding
definitions below are modelled from the specification and say so in their
doc comments.

Conventions: a `PeerId` is a natural number (the spec only requires a
totally ordered, comparable, hashable identity); a byte payload is a
`List Nat`; fallible operations return `Except String`.
-/

set_option autoImplicit false

namespace Anemo

/-- Stable identity of a node; totally ordered (used for tie-breaks). -/
abbrev PeerId := Nat

/-- Reason attached to a `LostPeer` event (from `types::DisconnectReason`):
`Requested` for an explicit local disconnect, `ConnectionLost` for a
transport-detected failure or timeout. -/
inductive DisconnectReason where
  | Requested
  | ConnectionLost
deriving DecidableEq, Repr

/-- Membership-change notification published by ActivePeers
(from `types::PeerEvent`). -/
inductive PeerEvent where
  | NewPeer (peer : PeerId)
  | LostPeer (peer : PeerId) (reason : DisconnectReason)
deriving DecidableEq, Repr

/-- Direction a live connection was established in: dialed by us
(outbound) or accepted from the peer (inbound).  Used by the tie-break
policy. -/
inductive Origin where
  | outbound
  | inbound
deriving DecidableEq, Repr

/-- Modelled from the spec: a live authenticated transport session to
exactly one peer (spec section 3, `Connection`); the concrete type lives in
the missing transport layer.  `remoteService` stands for the application
handler reachable at the remote end of this session, so that an RPC
exchange over the connection can be expressed. -/
structure Connection where
  peerId : PeerId
  origin : Origin
  remoteService : List Nat → List Nat

/-- Modelled from the spec: the state of the `ActivePeers` registry
(spec section 4.2; the Rust type lives in the missing
`connection_manager.rs`).  `connections` is the map from `PeerId` to the
unique live `Connection`, kept as an association list; `subscribers` holds,
for each registered subscriber, the FIFO list of events delivered to it so
far. -/
structure ActivePeersState where
  connections : List (PeerId × Connection)
  subscribers : List (List PeerEvent)

namespace ActivePeers

/-- The empty registry: no connections, no subscribers. -/
def empty : ActivePeersState := ⟨[], []⟩

/-- Modelled from the spec: `ActivePeers::get` — short-critical-section
lookup of the live connection for a peer id (spec section 4.2). -/
def get (s : ActivePeersState) (pid : PeerId) : Option Connection :=
  List.lookup pid s.connections

/-- Publish one event to every currently registered subscriber, appending
it at the tail of each FIFO delivery list. -/
def publish (s : ActivePeersState) (ev : PeerEvent) : ActivePeersState :=
  { s with subscribers := s.subscribers.map (fun l => l ++ [ev]) }

/-- Modelled from the spec: `ActivePeers::remove(peer_id, reason)` —
removes the entry if present, publishing exactly one `LostPeer` event;
no-op and no event if absent (spec sections 4.2 and 8, idempotence). -/
def remove (s : ActivePeersState) (pid : PeerId) (reason : DisconnectReason) :
    ActivePeersState :=
  match get s pid with
  | none => s
  | some _ =>
      { connections := s.connections.filter (fun e => e.fst != pid),
        subscribers :=
          (publish s (PeerEvent.LostPeer pid reason)).subscribers }

/-- Modelled from the spec: the tie-break policy (spec section 4.2).  The
side whose own id compares lower keeps its outbound-dialed connection and
closes any inbound duplicate; the higher-id side keeps its
inbound-accepted connection. -/
def keptOrigin (localId remoteId : PeerId) : Origin :=
  if localId < remoteId then Origin.outbound else Origin.inbound

/-- Modelled from the spec: which of two simultaneous connections to the
same peer survives, as decided by the tie-break policy: the incoming
duplicate wins exactly when its direction is the one the policy keeps on
this side. -/
def tieBreak (localId : PeerId) (existing incoming : Connection) : Connection :=
  if incoming.origin = keptOrigin localId incoming.peerId then incoming
  else existing

/-- Modelled from the spec: `ActivePeers::insert` — installs a connection
for its peer id, publishing `NewPeer`; if an entry already exists for that
id the tie-break policy decides which survives and the loser is closed
(spec section 4.2). -/
def insert (localId : PeerId) (s : ActivePeersState) (c : Connection) :
    ActivePeersState :=
  match get s c.peerId with
  | none =>
      { connections := (c.peerId, c) :: s.connections,
        subscribers := (publish s (PeerEvent.NewPeer c.peerId)).subscribers }
  | some existing =>
      { s with
        connections := s.connections.map
          (fun e => if e.fst == c.peerId then (c.peerId, tieBreak localId existing c) else e) }

/-- Modelled from the spec: `ActivePeers::subscribe` — registers a new
independent subscriber, which receives events from the moment of
subscription onward; returns the new state and the subscriber index. -/
def subscribe (s : ActivePeersState) : ActivePeersState × Nat :=
  ({ s with subscribers := s.subscribers ++ [[]] }, s.subscribers.length)

/-- The states of the registry reachable from the empty registry by the
operations the code performs on it. -/
inductive Reachable : ActivePeersState → Prop where
  | empty : Reachable ActivePeers.empty
  | insert (s : ActivePeersState) (localId : PeerId) (c : Connection) :
      Reachable s → Reachable (insert localId s c)
  | remove (s : ActivePeersState) (pid : PeerId) (r : DisconnectReason) :
      Reachable s → Reachable (remove s pid r)
  | subscribe (s : ActivePeersState) :
      Reachable s → Reachable (subscribe s).fst

end ActivePeers

/-! ## Wire framing and the RPC multiplexer

`wire.rs`, `peer.rs` and `request_handler.rs` are not in the provided
sources; the definitions below are modelled from the spec
(sections 4.4 and 4.5). -/

/-- Modelled from the spec: framing of a payload onto a stream
(`wire.rs` is missing).  The spec only requires that request and response
payloads are framed and deframed; a length-prefixed encoding realises
this. -/
def frameMsg (payload : List Nat) : List Nat :=
  payload.length :: payload

/-- Modelled from the spec: deframing of exactly one payload from a
stream; fails on an empty or ill-sized frame. -/
def deframe (stream : List Nat) : Option (List Nat) :=
  match stream with
  | [] => none
  | n :: rest => if rest.length = n then some rest else none

/-- Modelled from the spec: the request dispatcher (spec section 4.5;
`request_handler.rs` is missing).  For one stream the remote opened, it
reads one framed request, invokes the application handler, and writes back
the framed result. -/
def dispatchStream (handler : List Nat → List Nat) (stream : List Nat) :
    Option (List Nat) :=
  (deframe stream).map (fun req => frameMsg (handler req))

/-- Modelled from the spec: `Peer::rpc` (spec section 4.4; `peer.rs` is
missing).  Opens a fresh stream, frames and writes the request, and reads
and deframes exactly one response produced by the remote dispatcher. -/
def peerRpc (remoteService : List Nat → List Nat) (request : List Nat) :
    Option (List Nat) :=
  (dispatchStream remoteService (frameMsg request)).bind deframe

/-- An RPC exchange over a live connection, as surfaced to the caller:
the multiplexed exchange with the remote service of that connection, with
a stream-level failure reported as a transport error. -/
def connectionRpc (c : Connection) (request : List Nat) :
    Except String (List Nat) :=
  match peerRpc c.remoteService request with
  | some resp => Except.ok resp
  | none => Except.error "transport error"

/-! ## The Network facade (`NetworkInner`, embedded from
`src/network/mod.rs`) -/

namespace NetworkInner

/-- `NetworkInner::rpc` (mod.rs lines 143-148): resolve the peer in
ActivePeers; with no active connection fail with the `not connected`
error, otherwise forward the request over the resolved connection. -/
def rpc (s : ActivePeersState) (peerId : PeerId) (request : List Nat) :
    Except String (List Nat) :=
  match ActivePeers.get s peerId with
  | none => Except.error ("not connected to peer " ++ toString peerId)
  | some c => connectionRpc c request

/-- `NetworkInner::disconnect` (mod.rs lines 132-136): remove the peer
from ActivePeers with reason `Requested`, ignoring whether it was present,
and return `Ok(())` unconditionally. -/
def disconnect (s : ActivePeersState) (peerId : PeerId) :
    ActivePeersState × Except String Unit :=
  (ActivePeers.remove s peerId DisconnectReason.Requested, Except.ok ())

/-- Outcome of `NetworkInner::connect` as observed by the caller: a panic
(from `expect`), a peer id on success, or an error result. -/
inductive ConnectOutcome where
  | panics (msg : String)
  | ok (peer : PeerId)
  | err (msg : String)
deriving DecidableEq, Repr

/-- `NetworkInner::connect` (mod.rs lines 123-130): send a
`ConnectRequest` on the manager command channel and await the oneshot
reply.  `managerUp` is whether the ConnectionManager task still holds the
receiving end of the command channel: when it does not, the `send` fails
and `expect` panics.  `reply` is what arrives on the oneshot channel:
`none` when the sender was dropped (the `recv` error is propagated with
the question-mark operator), otherwise the dial result. -/
def connect (managerUp : Bool) (reply : Option (Except String PeerId)) :
    ConnectOutcome :=
  if managerUp then
    match reply with
    | none => ConnectOutcome.err "oneshot channel closed"
    | some (Except.ok p) => ConnectOutcome.ok p
    | some (Except.error e) => ConnectOutcome.err e
  else
    ConnectOutcome.panics "ConnectionManager should still be up"

/-- Modelled from the spec: the Connection Manager converts a
transport-detected termination of a live connection into
`remove(peer_id, ConnectionLost)` (spec sections 4.3 and 7;
`connection_manager.rs` is missing). -/
def onTransportLoss (s : ActivePeersState) (peerId : PeerId) :
    ActivePeersState :=
  ActivePeers.remove s peerId DisconnectReason.ConnectionLost

/-- `Drop for NetworkInner` (mod.rs lines 158-162) calls
`endpoint.close()`.  Modelled from the spec for the parts outside the
provided sources: closing the Endpoint terminates all live connections
(spec section 6), and each termination is handled as
`remove(peer_id, ConnectionLost)` (spec section 4.3). -/
def dropClose (s : ActivePeersState) : ActivePeersState :=
  (s.connections.map Prod.fst).foldl
    (fun st pid => ActivePeers.remove st pid DisconnectReason.ConnectionLost) s

end NetworkInner

/-! ## Tie-break convergence model -/

/-- The physical link a node keeps after the tie-break, identified
side-independently by the pair (dialer id, acceptor id): keeping the
outbound connection means keeping the link this node dialed, keeping the
inbound one means keeping the link the peer dialed. -/
def linkKept (localId remoteId : PeerId) : PeerId × PeerId :=
  match ActivePeers.keptOrigin localId remoteId with
  | Origin.outbound => (localId, remoteId)
  | Origin.inbound => (remoteId, localId)

/-- The key list of the connection map, for readability of the invariant
statements. -/
def ActivePeersState.keys (s : ActivePeersState) : List PeerId :=
  s.connections.map Prod.fst

/-- A concrete connection to peer 2, used by closed witness statements. -/
def cWitness : Connection := ⟨2, Origin.inbound, fun b => b⟩

/-- A concrete connection to peer 3, absent from the witness states. -/
def cAbsentWitness : Connection := ⟨3, Origin.inbound, fun b => b⟩

/-- Concrete node 1 state for closed witness statements: connected to
peer 2, one subscriber with an empty delivery history. -/
def n1Witness : ActivePeersState :=
  ⟨[(2, ⟨2, Origin.outbound, fun b => b⟩)], [[]]⟩

/-- Concrete node 2 state for closed witness statements: connected to
peer 1, one subscriber with an empty delivery history. -/
def n2Witness : ActivePeersState :=
  ⟨[(1, ⟨1, Origin.inbound, fun b => b⟩)], [[]]⟩

/-- Concrete registry state with two live connections and one subscriber,
used by the shutdown witness. -/
def dropWitnessState : ActivePeersState :=
  ⟨[(1, ⟨1, Origin.inbound, fun b => b⟩),
    (2, ⟨2, Origin.outbound, fun b => b⟩)], [[]]⟩

/-! ## Helper lemmas on the registry -/

theorem lookup_none_iff {β : Type} (pid : PeerId) (l : List (PeerId × β)) :
    List.lookup pid l = none ↔ pid ∉ l.map Prod.fst := by
  induction l with
  | nil => simp
  | cons e rest ih =>
      obtain ⟨k, v⟩ := e
      by_cases h : pid = k
      · subst h
        simp [List.lookup]
      · simp [List.lookup, beq_false_of_ne h, ih, Ne.symm h, h]

theorem fst_replace (k : PeerId) (w : Connection) (e : PeerId × Connection) :
    (if e.fst == k then (k, w) else e).fst = e.fst := by
  by_cases h : e.fst = k
  · simp [h]
  · simp [beq_false_of_ne h]

theorem keys_replace (k : PeerId) (w : Connection)
    (l : List (PeerId × Connection)) :
    (l.map (fun e => if e.fst == k then (k, w) else e)).map Prod.fst =
      l.map Prod.fst := by
  induction l with
  | nil => rfl
  | cons e rest ih =>
      simp only [List.map_cons, fst_replace, ih]

theorem get_remove_self (s : ActivePeersState) (pid : PeerId)
    (r : DisconnectReason) :
    ActivePeers.get (ActivePeers.remove s pid r) pid = none := by
  unfold ActivePeers.remove
  cases hg : ActivePeers.get s pid with
  | none => exact hg
  | some c =>
      show List.lookup pid (s.connections.filter (fun e => e.fst != pid)) = none
      rw [lookup_none_iff]
      intro hmem
      obtain ⟨e, he, hfst⟩ := List.mem_map.mp hmem
      have := List.of_mem_filter he
      rw [hfst] at this
      simp at this

/-- C1: for every PeerId, the ActivePeers registry contains at most one
Connection at any instant: every state reachable from the empty registry
by insert (with tie-break), remove and subscribe has no two entries for
the same PeerId. -/
theorem activePeers_at_most_one_connection_per_peer (s : ActivePeersState)
    (h : ActivePeers.Reachable s) : s.keys.Nodup := by
  induction h with
  | empty => simp [ActivePeersState.keys, ActivePeers.empty]
  | insert t localId c hr ih =>
      unfold ActivePeersState.keys at ih ⊢
      cases hg : ActivePeers.get t c.peerId with
      | none =>
          simp only [ActivePeers.insert, hg, List.map_cons, List.nodup_cons]
          exact ⟨(lookup_none_iff c.peerId _).mp hg, ih⟩
      | some existing =>
          simp only [ActivePeers.insert, hg]
          rw [keys_replace]
          exact ih
  | remove t pid r hr ih =>
      unfold ActivePeersState.keys at ih ⊢
      cases hg : ActivePeers.get t pid with
      | none => simp only [ActivePeers.remove, hg]; exact ih
      | some c =>
          simp only [ActivePeers.remove, hg]
          exact ih.sublist ((List.filter_sublist _).map Prod.fst)
  | subscribe t hr ih => exact ih

/-- Witness for C1 at a concrete reachable state: one insert into the
empty registry. -/
theorem activePeers_at_most_one_connection_per_peer_witness :
    (ActivePeers.insert 1 ActivePeers.empty cWitness).keys.Nodup :=
  activePeers_at_most_one_connection_per_peer _
    (ActivePeers.Reachable.insert ActivePeers.empty 1 cWitness
      ActivePeers.Reachable.empty)

/-- C2: for every established connection and every request payload, the
RPC exchange returns exactly the bytes the remote handler returns for
that request; in particular with an echo handler the response body equals
the request body. -/
theorem rpc_round_trip (handler : List Nat → List Nat) (request : List Nat) :
    peerRpc handler request = some (handler request) ∧
      peerRpc (fun b => b) request = some request := by
  constructor
  · simp [peerRpc, dispatchStream, frameMsg, deframe]
  · simp [peerRpc, dispatchStream, frameMsg, deframe]

/-- C3: when the peer has no active connection in ActivePeers, rpc fails
with the `not connected` error surfaced to the caller with no internal
retry; when an active connection exists, the request is forwarded over
it (a single exchange over that connection). -/
theorem rpc_not_connected_or_forwarded (s : ActivePeersState)
    (pid : PeerId) (request : List Nat) :
    (ActivePeers.get s pid = none →
        NetworkInner.rpc s pid request =
          Except.error ("not connected to peer " ++ toString pid)) ∧
      (∀ c : Connection, ActivePeers.get s pid = some c →
        NetworkInner.rpc s pid request = connectionRpc c request) := by
  constructor
  · intro hg
    simp [NetworkInner.rpc, hg]
  · intro c hg
    simp [NetworkInner.rpc, hg]

/-- Witness for C3 at concrete inputs: on the empty registry the error
path is taken; after inserting a connection for peer 2 the request is
forwarded over it. -/
theorem rpc_not_connected_or_forwarded_witness :
    NetworkInner.rpc ActivePeers.empty 5 [1, 2] =
        Except.error ("not connected to peer " ++ toString (5 : Nat)) ∧
      NetworkInner.rpc (ActivePeers.insert 1 ActivePeers.empty cWitness) 2 [1, 2] =
        connectionRpc cWitness [1, 2] :=
  ⟨(rpc_not_connected_or_forwarded ActivePeers.empty 5 [1, 2]).1 rfl,
   (rpc_not_connected_or_forwarded _ 2 [1, 2]).2 cWitness rfl⟩

/-- C4: disconnect returns Ok(()) for every PeerId, and on an absent peer
the underlying remove is an idempotent no-op: the registry state is
unchanged, so no event is published and no error is produced. -/
theorem disconnect_always_ok (s : ActivePeersState) (pid : PeerId) :
    (NetworkInner.disconnect s pid).snd = Except.ok () ∧
      (ActivePeers.get s pid = none → (NetworkInner.disconnect s pid).fst = s) := by
  refine ⟨rfl, ?_⟩
  intro hg
  simp [NetworkInner.disconnect, ActivePeers.remove, hg]

/-- Witness for C4 on the empty registry, where peer 7 is absent. -/
theorem disconnect_always_ok_witness :
    (NetworkInner.disconnect ActivePeers.empty 7).snd = Except.ok () ∧
      (NetworkInner.disconnect ActivePeers.empty 7).fst = ActivePeers.empty :=
  ⟨(disconnect_always_ok ActivePeers.empty 7).1,
   (disconnect_always_ok ActivePeers.empty 7).2 rfl⟩

/-- C5 counterexample: disconnecting peer 42, which has no active entry in
the empty registry, surfaces no error at all — the call returns Ok(()),
refuting the claim that a `not connected` error reaches the caller. -/
theorem disconnect_absent_no_error :
    ActivePeers.get ActivePeers.empty 42 = none ∧
      (NetworkInner.disconnect ActivePeers.empty 42).snd = Except.ok () :=
  ⟨rfl, rfl⟩

/-- C5 amended: when disconnect is called with a PeerId that has no active
entry, the call still returns Ok(()) and never surfaces an error; the
`not connected` error is surfaced by rpc only. -/
theorem disconnect_absent_returns_ok (s : ActivePeersState) (pid : PeerId)
    (_hg : ActivePeers.get s pid = none) :
    (NetworkInner.disconnect s pid).snd = Except.ok () ∧
      ∀ e : String, (NetworkInner.disconnect s pid).snd ≠ Except.error e := by
  refine ⟨rfl, ?_⟩
  intro e h
  simp [NetworkInner.disconnect] at h

/-- Witness for the amended C5 at the empty registry and peer 42. -/
theorem disconnect_absent_returns_ok_witness :
    (NetworkInner.disconnect ActivePeers.empty 42).snd = Except.ok () ∧
      ∀ e : String,
        (NetworkInner.disconnect ActivePeers.empty 42).snd ≠ Except.error e :=
  disconnect_absent_returns_ok ActivePeers.empty 42 rfl

/-- C6: when a peer has an active connection, an explicit local disconnect
removes it from ActivePeers and delivers exactly one
`LostPeer(peer, Requested)` event to every local subscriber, while the
remote node, observing the transport loss, removes the local peer and
delivers exactly one `LostPeer(peer, ConnectionLost)` event to every of
its subscribers. -/
theorem disconnect_two_node_events (n1 n2 : ActivePeersState)
    (p1 p2 : PeerId) (c12 c21 : Connection)
    (h1 : ActivePeers.get n1 p2 = some c12)
    (h2 : ActivePeers.get n2 p1 = some c21) :
    ActivePeers.get (NetworkInner.disconnect n1 p2).fst p2 = none ∧
    (NetworkInner.disconnect n1 p2).fst.subscribers =
      n1.subscribers.map
        (fun l => l ++ [PeerEvent.LostPeer p2 DisconnectReason.Requested]) ∧
    ActivePeers.get (NetworkInner.onTransportLoss n2 p1) p1 = none ∧
    (NetworkInner.onTransportLoss n2 p1).subscribers =
      n2.subscribers.map
        (fun l => l ++ [PeerEvent.LostPeer p1 DisconnectReason.ConnectionLost]) := by
  refine ⟨get_remove_self n1 p2 _, ?_, get_remove_self n2 p1 _, ?_⟩
  · simp [NetworkInner.disconnect, ActivePeers.remove, h1, ActivePeers.publish]
  · simp [NetworkInner.onTransportLoss, ActivePeers.remove, h2, ActivePeers.publish]

/-- Witness for C6 on the concrete two-node states. -/
theorem disconnect_two_node_events_witness :
    ActivePeers.get (NetworkInner.disconnect n1Witness 2).fst 2 = none ∧
    (NetworkInner.disconnect n1Witness 2).fst.subscribers =
      n1Witness.subscribers.map
        (fun l => l ++ [PeerEvent.LostPeer 2 DisconnectReason.Requested]) ∧
    ActivePeers.get (NetworkInner.onTransportLoss n2Witness 1) 1 = none ∧
    (NetworkInner.onTransportLoss n2Witness 1).subscribers =
      n2Witness.subscribers.map
        (fun l => l ++ [PeerEvent.LostPeer 1 DisconnectReason.ConnectionLost]) :=
  disconnect_two_node_events n1Witness n2Witness 1 2
    ⟨2, Origin.outbound, fun b => b⟩ ⟨1, Origin.inbound, fun b => b⟩ rfl rfl

/-- C7: a remove of a present peer and an insert of an absent peer each
append exactly one corresponding event at the tail of the FIFO delivery
list of every subscriber registered at the time of the change, and a
subscriber registered by subscribe starts with an empty delivery list, so
it never receives a past event. -/
theorem event_per_subscriber (s : ActivePeersState) (lid pid : PeerId)
    (r : DisconnectReason) (c : Connection) :
    (∀ c0 : Connection, ActivePeers.get s pid = some c0 →
        (ActivePeers.remove s pid r).subscribers =
          s.subscribers.map (fun l => l ++ [PeerEvent.LostPeer pid r])) ∧
    (ActivePeers.get s c.peerId = none →
        (ActivePeers.insert lid s c).subscribers =
          s.subscribers.map (fun l => l ++ [PeerEvent.NewPeer c.peerId])) ∧
    (ActivePeers.subscribe s).fst.subscribers = s.subscribers ++ [[]] ∧
    (ActivePeers.subscribe s).fst.subscribers[(ActivePeers.subscribe s).snd]? =
      some [] := by
  refine ⟨?_, ?_, rfl, ?_⟩
  · intro c0 hg
    simp [ActivePeers.remove, hg, ActivePeers.publish]
  · intro hg
    simp [ActivePeers.insert, hg, ActivePeers.publish]
  · show (s.subscribers ++ [[]])[s.subscribers.length]? = some []
    simp

/-- Witness for C7 on a registry with one connection and one subscriber. -/
theorem event_per_subscriber_witness :
    (ActivePeers.remove n1Witness 2 DisconnectReason.Requested).subscribers =
      n1Witness.subscribers.map
        (fun l => l ++ [PeerEvent.LostPeer 2 DisconnectReason.Requested]) ∧
    (ActivePeers.insert 1 n1Witness cAbsentWitness).subscribers =
      n1Witness.subscribers.map
        (fun l => l ++ [PeerEvent.NewPeer 3]) ∧
    (ActivePeers.subscribe n1Witness).fst.subscribers =
      n1Witness.subscribers ++ [[]] :=
  ⟨(event_per_subscriber n1Witness 1 2 DisconnectReason.Requested
      cAbsentWitness).1 ⟨2, Origin.outbound, fun b => b⟩ rfl,
   (event_per_subscriber n1Witness 1 2 DisconnectReason.Requested
      cAbsentWitness).2.1 rfl,
   (event_per_subscriber n1Witness 1 2 DisconnectReason.Requested
      cAbsentWitness).2.2.1⟩

/-- C8: the tie-break is deterministic and side-independent: for two
distinct peers both sides converge on the same surviving physical link,
the side with the lower id keeping its outbound-dialed connection and the
higher-id side keeping its inbound-accepted one — in both cases the link
dialed by the lower-id node. -/
theorem tie_break_convergence (a b : PeerId) (h : a ≠ b) :
    linkKept a b = linkKept b a ∧
    (a < b →
        ActivePeers.keptOrigin a b = Origin.outbound ∧
        ActivePeers.keptOrigin b a = Origin.inbound ∧
        linkKept a b = (a, b)) ∧
    (b < a →
        ActivePeers.keptOrigin a b = Origin.inbound ∧
        ActivePeers.keptOrigin b a = Origin.outbound ∧
        linkKept a b = (b, a)) := by
  rcases lt_trichotomy a b with hab | hab | hab
  · refine ⟨?_, fun _ => ⟨?_, ?_, ?_⟩, fun hba => absurd hab (not_lt_of_gt hba)⟩ <;>
      simp [linkKept, ActivePeers.keptOrigin, hab, not_lt_of_gt hab]
  · exact absurd hab h
  · refine ⟨?_, fun hab2 => absurd hab2 (not_lt_of_gt hab), fun _ => ⟨?_, ?_, ?_⟩⟩ <;>
      simp [linkKept, ActivePeers.keptOrigin, hab, not_lt_of_gt hab]

/-- Witness for C8 at the distinct concrete ids 1 and 2. -/
theorem tie_break_convergence_witness :
    linkKept 1 2 = linkKept 2 1 ∧
      ActivePeers.keptOrigin 1 2 = Origin.outbound ∧
      ActivePeers.keptOrigin 2 1 = Origin.inbound ∧
      linkKept 1 2 = (1, 2) :=
  ⟨(tie_break_convergence 1 2 (by decide)).1,
   (tie_break_convergence 1 2 (by decide)).2.1 (by decide)⟩

/-- C10: when the ConnectionManager task has terminated (the command
channel has no receiver), connect panics with the expect message rather
than returning an error to the caller. -/
theorem connect_panics_when_manager_down
    (reply : Option (Except String PeerId)) :
    NetworkInner.connect false reply =
      NetworkInner.ConnectOutcome.panics "ConnectionManager should still be up" ∧
    ∀ e : String,
      NetworkInner.connect false reply ≠ NetworkInner.ConnectOutcome.err e := by
  refine ⟨rfl, ?_⟩
  intro e h
  simp [NetworkInner.connect] at h

/-- Witness for C10 at the concrete reply value none. -/
theorem connect_panics_when_manager_down_witness :
    NetworkInner.connect false none =
      NetworkInner.ConnectOutcome.panics "ConnectionManager should still be up" :=
  (connect_panics_when_manager_down none).1

/-- C9 helper: folding the ConnectionLost removal over all keys of the
connection map empties it and appends, to every subscriber registered
before the shutdown, one LostPeer(ConnectionLost) event per live
connection, in map order. -/
theorem closeAll_spec (conns : List (PeerId × Connection))
    (subs : List (List PeerEvent)) (h : (conns.map Prod.fst).Nodup) :
    (conns.map Prod.fst).foldl
        (fun st pid => ActivePeers.remove st pid DisconnectReason.ConnectionLost)
        ⟨conns, subs⟩ =
      ⟨[], subs.map (fun l =>
        l ++ conns.map
          (fun e => PeerEvent.LostPeer e.fst DisconnectReason.ConnectionLost))⟩ := by
  induction conns generalizing subs with
  | nil => simp
  | cons e rest ih =>
      obtain ⟨p, c⟩ := e
      simp only [List.map_cons, List.nodup_cons, List.mem_map] at h
      obtain ⟨hnotin, hrest⟩ := h
      simp only [List.map_cons, List.foldl_cons]
      have hget :
          ActivePeers.get ⟨(p, c) :: rest, subs⟩ p = some c := by
        simp [ActivePeers.get, List.lookup]
      have hfilter :
          ((p, c) :: rest).filter (fun e => e.fst != p) = rest := by
        simp only [List.filter]
        have hhead : ((p, c).fst != p) = false := by simp
        rw [hhead]
        apply List.filter_eq_self.mpr
        intro e he
        have : e.fst ≠ p := fun heq => hnotin ⟨e, he, heq⟩
        simpa using this
      have hstep :
          ActivePeers.remove ⟨(p, c) :: rest, subs⟩ p
              DisconnectReason.ConnectionLost =
            ⟨rest, subs.map (fun l =>
              l ++ [PeerEvent.LostPeer p DisconnectReason.ConnectionLost])⟩ := by
        simp only [ActivePeers.remove, hget, ActivePeers.publish, hfilter]
      rw [hstep, ih _ hrest]
      simp [List.map_map, Function.comp, List.append_assoc]

/-- C9: dropping the last Network handle closes the owning Endpoint; with
no duplicate registry entries this terminates every live connection,
leaving ActivePeers empty and delivering to each subscriber exactly one
LostPeer(ConnectionLost) event per previously live connection. -/
theorem drop_closes_all_connections (s : ActivePeersState)
    (h : s.keys.Nodup) :
    (NetworkInner.dropClose s).connections = [] ∧
    (NetworkInner.dropClose s).subscribers =
      s.subscribers.map (fun l =>
        l ++ s.connections.map
          (fun e => PeerEvent.LostPeer e.fst DisconnectReason.ConnectionLost)) := by
  obtain ⟨conns, subs⟩ := s
  have hspec := closeAll_spec conns subs h
  unfold NetworkInner.dropClose
  simp only at hspec ⊢
  rw [hspec]
  exact ⟨rfl, rfl⟩

/-- Witness for C9 on a registry with two live connections and one
subscriber. -/
theorem drop_closes_all_connections_witness :
    (NetworkInner.dropClose dropWitnessState).connections = [] ∧
    (NetworkInner.dropClose dropWitnessState).subscribers =
      dropWitnessState.subscribers.map (fun l =>
        l ++ dropWitnessState.connections.map
          (fun e => PeerEvent.LostPeer e.fst DisconnectReason.ConnectionLost)) :=
  drop_closes_all_connections dropWitnessState (by decide)

end Anemo
